import Mathlib

/-!
Verification of the FGI (Fear & Greed Index) backtest repository.

The embedding below translates `src/backtest.py` and `src/data.py` into Lean.
Numeric columns (prices, FGI values, capital) are Python floats in the source;
they are modelled as exact rationals (`ℚ`), and presentation-only operations of
the source (decimal `round(x, 2)` for display, `strftime` date formatting, and
the per-trade mean/max/min summary fields) are not modelled, since no statement
below depends on them.  Calendar dates are modelled as day numbers (`Nat`);
`(sell_date - buy_date).days` becomes integer subtraction of day numbers.
-/

namespace Backtest

/-- A row of the aligned DataFrame handed to `run_fgi_strategy`:
columns `Open`, `Close`, `FGI`, indexed by `date`. -/
structure Row where
  date : Nat
  Open : ℚ
  Close : ℚ
  FGI : ℚ
  deriving DecidableEq, Repr

/-- A completed trade record as appended to the `trades` list in
`run_fgi_strategy` (`src/backtest.py` lines 57-66 and 77-87).  The
signal-triggered record has no `posicao_aberta` key, which is modelled as
`posicao_aberta = false`; the forced-liquidation record sets it to `true`. -/
structure Trade where
  compra_data : Nat
  compra_preco : ℚ
  compra_fgi : ℚ
  venda_data : Nat
  venda_preco : ℚ
  venda_fgi : ℚ
  retorno_pct : ℚ
  dias_trade : Int
  posicao_aberta : Bool
  deriving DecidableEq, Repr

/-- The mutable loop state of `run_fgi_strategy`: `position`/`buy_price`/
`buy_date` (collapsed into an `Option (Nat × ℚ)` holding buy date and buy
price when long), the running capital `capital_atual`, and the `trades`
list. -/
structure EngineState where
  position : Option (Nat × ℚ)
  capital : ℚ
  trades : List Trade
  deriving DecidableEq, Repr

/-- Lookup `df.loc[d, FGI]`: the FGI value of the first row of `df` whose
date is `d` (the aligned frame has unique dates). -/
def lookupFGI (df : List Row) (d : Nat) : ℚ :=
  ((df.find? (fun r => r.date == d)).map (fun r => r.FGI)).getD 0

/-- One iteration of the `for idx, row in df.iterrows()` loop of
`run_fgi_strategy` (`src/backtest.py` lines 38-69): while flat, buy when
`fgi <= buy_threshold`; while long, sell when `fgi >= sell_threshold`. -/
def stepFGI (df : List Row) (bt st : ℚ) (s : EngineState) (r : Row) : EngineState :=
  match s.position with
  | none =>
      if r.FGI ≤ bt then { s with position := some (r.date, r.Close) } else s
  | some (bd, bp) =>
      if st ≤ r.FGI then
        { position := none
          capital := s.capital * (1 + ((r.Close - bp) / bp * 100) / 100)
          trades := s.trades ++
            [{ compra_data := bd, compra_preco := bp, compra_fgi := lookupFGI df bd,
               venda_data := r.date, venda_preco := r.Close, venda_fgi := r.FGI,
               retorno_pct := (r.Close - bp) / bp * 100,
               dias_trade := (r.date : Int) - (bd : Int), posicao_aberta := false }] }
      else s

/-- The loop state before the first day: no position, `capital_inicial = 10000`
(hardcoded at `src/backtest.py` line 35), empty trade list. -/
def initState : EngineState :=
  { position := none, capital := 10000, trades := [] }

/-- The state after the full day loop of `run_fgi_strategy` over `df`. -/
def loopFGI (bt st : ℚ) (df : List Row) : EngineState :=
  df.foldl (stepFGI df bt st) initState

/-- The `df.sort_index()` call (`src/backtest.py` line 29): stable sort of the
rows by date. -/
def sortRows (df : List Row) : List Row :=
  List.insertionSort (fun a b => a.date ≤ b.date) df

/-- The ledger and capital after the forced-liquidation block
(`src/backtest.py` lines 71-87): if still long after the loop, a final record
with `posicao_aberta = True` is appended, selling at the last row's close. -/
def finalState (bt st : ℚ) (df : List Row) : List Trade × ℚ :=
  let s := loopFGI bt st df
  match s.position, df.getLast? with
  | some (bd, bp), some lastR =>
      (s.trades ++
        [{ compra_data := bd, compra_preco := bp, compra_fgi := lookupFGI df bd,
           venda_data := lastR.date, venda_preco := lastR.Close, venda_fgi := lastR.FGI,
           retorno_pct := (lastR.Close - bp) / bp * 100,
           dias_trade := (lastR.date : Int) - (bd : Int), posicao_aberta := true }],
       s.capital * (1 + ((lastR.Close - bp) / bp * 100) / 100))
  | _, _ => (s.trades, s.capital)

/-- Message of the empty-input branch (`src/backtest.py` line 24). -/
def msgInsuficiente : String := "Dados insuficientes para análise"

/-- Message of the zero-trade branch (`src/backtest.py` line 143). -/
def msgNenhumTrade : String := "Nenhum trade foi executado com esses parâmetros"

/-- The result dictionary of `run_fgi_strategy`.  The three branches of the
source return dictionaries with different key sets; a key absent from the
returned dictionary is modelled by the field default (`none` for `erro`,
`0`/`[]` elsewhere). -/
structure Stats where
  erro : Option String := none
  periodo_inicio : Nat := 0
  periodo_fim : Nat := 0
  total_dias : Nat := 0
  capital_inicial : ℚ := 0
  capital_final_estrategia : ℚ := 0
  retorno_total_estrategia_pct : ℚ := 0
  capital_final_buy_hold : ℚ := 0
  retorno_total_buy_hold_pct : ℚ := 0
  numero_trades : Nat := 0
  trades_positivos : Nat := 0
  trades_negativos : Nat := 0
  taxa_acerto_pct : ℚ := 0
  trades_detalhados : List Trade := []
  deriving DecidableEq, Repr

/-- Translation of `run_fgi_strategy` (`src/backtest.py` lines 6-151).
`df0` is the input frame, `bt`/`st` the buy and sell thresholds. -/
def run_fgi_strategy (df0 : List Row) (bt st : ℚ) : Stats :=
  if df0 = [] then
    { erro := some msgInsuficiente, total_dias := 0 }
  else
    let df := sortRows df0
    let fin := finalState bt st df
    let trades := fin.1
    let capital_atual := fin.2
    let preco_inicial := (df.headD { date := 0, Open := 0, Close := 0, FGI := 0 }).Close
    let preco_final := (df.getLastD { date := 0, Open := 0, Close := 0, FGI := 0 }).Close
    let retorno_buy_hold_pct := (preco_final - preco_inicial) / preco_inicial * 100
    let capital_buy_hold := 10000 * (1 + retorno_buy_hold_pct / 100)
    if trades = [] then
      { erro := some msgNenhumTrade
        periodo_inicio := (df.headD { date := 0, Open := 0, Close := 0, FGI := 0 }).date
        periodo_fim := (df.getLastD { date := 0, Open := 0, Close := 0, FGI := 0 }).date
        total_dias := df.length
        numero_trades := 0
        retorno_total_buy_hold_pct := retorno_buy_hold_pct }
    else
      let positivos := trades.filter (fun t => decide (0 < t.retorno_pct))
      let negativos := trades.filter (fun t => decide (t.retorno_pct ≤ 0))
      { periodo_inicio := (df.headD { date := 0, Open := 0, Close := 0, FGI := 0 }).date
        periodo_fim := (df.getLastD { date := 0, Open := 0, Close := 0, FGI := 0 }).date
        total_dias := df.length
        capital_inicial := 10000
        capital_final_estrategia := capital_atual
        retorno_total_estrategia_pct := (capital_atual - 10000) / 10000 * 100
        capital_final_buy_hold := capital_buy_hold
        retorno_total_buy_hold_pct := retorno_buy_hold_pct
        numero_trades := trades.length
        trades_positivos := positivos.length
        trades_negativos := negativos.length
        taxa_acerto_pct := (positivos.length : ℚ) / (trades.length : ℚ) * 100
        trades_detalhados := trades }

/-- A row of the price frame produced by `get_btc_history`
(`src/data.py`): columns `Open` and `Close`, indexed by `date`. -/
structure PxRow where
  date : Nat
  Open : ℚ
  Close : ℚ
  deriving DecidableEq, Repr

/-- Translation of `align_series` (`src/data.py` lines 293-321): empty-input
guards, then `px.join(fgi, how="inner")` — each price row is kept exactly when
the sentiment frame holds its exact date (the sentiment frame has unique
dates, guaranteed by fetch normalization) — then the inclusive date-window
filter.  The sentiment series is a list of `(date, FGI)` pairs. -/
def align_series (fgi : List (Nat × ℚ)) (px : List PxRow) (dstart dend : Nat) :
    List Row :=
  if fgi = [] then []
  else if px = [] then []
  else
    (px.filterMap (fun p =>
        (fgi.find? (fun q => q.1 == p.date)).map
          (fun q => ({ date := p.date, Open := p.Open, Close := p.Close, FGI := q.2 } : Row)))).filter
      (fun r => decide (dstart ≤ r.date) && decide (r.date ≤ dend))

/-- A record of the alternative.me API payload as consumed by
`_fetch_fgi_from_api` (`src/data.py` lines 71-89): an optional timestamp and
an optional numeric value; a record missing either field, or whose fields do
not parse, is skipped.  Timestamp parsing (Unix seconds or `MM-DD-YYYY`) is
abstracted to an already-parsed optional day number. -/
structure ApiRecord where
  timestamp : Option Nat
  value : Option ℚ
  deriving DecidableEq, Repr

/-- The `drop_duplicates(subset=["date"])` step (`src/data.py` line 96):
keep the first row of each date, preserving order. -/
def dedupByDate (l : List (Nat × ℚ)) : List (Nat × ℚ) :=
  l.foldl (fun acc r => if acc.any (fun q => q.1 == r.1) then acc else acc ++ [r]) []

/-- The record loop of `_fetch_fgi_from_api` (`src/data.py` lines 71-89):
a record with both fields present and parsable contributes one `(date, FGI)`
row; every other record is skipped. -/
def apiRows (data : List ApiRecord) : List (Nat × ℚ) :=
  data.filterMap (fun d =>
    match d.timestamp, d.value with
    | some ts, some v => some (ts, v)
    | _, _ => none)

/-- Translation of `_fetch_fgi_from_api` (`src/data.py` lines 55-106): keep
records with both fields present, return empty if none, else deduplicate by
date and sort ascending by date.  The `astype(float)` coercion is the
identity on the rational model; no clipping of values is performed anywhere
in `src/data.py`. -/
def fetch_fgi_from_api (data : List ApiRecord) : List (Nat × ℚ) :=
  if apiRows data = [] then []
  else List.insertionSort (fun a b => a.1 ≤ b.1) (dedupByDate (apiRows data))

/-- Modelled from the spec: the fee-aware engine `run_backtest` that
`src/app.py` imports from `backtest` and calls with a `trade_fee` argument is
not present in `src/backtest.py`; its buy leg is given by spec §4.3:
on a Buy, all available cash converts to asset quantity
`quantity = cash × (1 − feeRate) / executionPrice`. -/
def buyLeg (cash feeRate price : ℚ) : ℚ :=
  cash * (1 - feeRate) / price

/-- Modelled from the spec: the sell leg of the missing fee-aware engine,
spec §4.3: on a Sell, `cash = quantity × executionPrice × (1 − feeRate)`. -/
def sellLeg (quantity feeRate price : ℚ) : ℚ :=
  quantity * price * (1 - feeRate)

/-- Modelled from the spec: the cash remaining after a single buy-sell round
trip of the fee-aware engine, entering at `entry` and exiting at `exit`. -/
def roundTrip (cash feeRate entry exit : ℚ) : ℚ :=
  sellLeg (buyLeg cash feeRate entry) feeRate exit

/-- The side of one executed trade leg. -/
inductive Side where
  | buy
  | sell
  deriving DecidableEq, Repr

/-- One executed leg of a trade record. -/
structure Leg where
  side : Side
  date : Nat
  price : ℚ
  deriving DecidableEq, Repr

/-- The two legs contained in one trade record of the ledger: each record
carries both its buy leg and its sell leg. -/
def tradeLegs (t : Trade) : List Leg :=
  [{ side := Side.buy, date := t.compra_data, price := t.compra_preco },
   { side := Side.sell, date := t.venda_data, price := t.venda_preco }]

/-- All legs of a trade ledger, in ledger order. -/
def ledgerLegs : List Trade → List Leg
  | [] => []
  | t :: ts => tradeLegs t ++ ledgerLegs ts

/-- Number of legs of a given side in a trade ledger. -/
def countLegs (sd : Side) (ts : List Trade) : Nat :=
  (ledgerLegs ts).countP (fun leg => leg.side == sd)

/-- One engine step only ever appends to the trade ledger. -/
theorem stepFGI_trades_prefix (df : List Row) (bt st : ℚ) (s : EngineState) (r : Row) :
    ∃ ts2, (stepFGI df bt st s r).trades = s.trades ++ ts2 := by
  rcases hp : s.position with _ | ⟨bd, bp⟩
  · by_cases hc : r.FGI ≤ bt
    · exact ⟨[], by simp [stepFGI, hp, hc]⟩
    · exact ⟨[], by simp [stepFGI, hp, hc]⟩
  · by_cases hc : st ≤ r.FGI
    · refine ⟨[{ compra_data := bd, compra_preco := bp,
                 compra_fgi := lookupFGI df bd,
                 venda_data := r.date, venda_preco := r.Close, venda_fgi := r.FGI,
                 retorno_pct := (r.Close - bp) / bp * 100,
                 dias_trade := (r.date : Int) - (bd : Int),
                 posicao_aberta := false }], ?_⟩
      simp [stepFGI, hp, hc]
    · exact ⟨[], by simp [stepFGI, hp, hc]⟩

/-- The day loop only ever appends to the trade ledger. -/
theorem foldl_trades_prefix (df : List Row) (bt st : ℚ) :
    ∀ (l : List Row) (s : EngineState),
      ∃ ts2, (l.foldl (stepFGI df bt st) s).trades = s.trades ++ ts2
  | [], s => ⟨[], by simp⟩
  | r :: l, s => by
    obtain ⟨ts2, h2⟩ := foldl_trades_prefix df bt st l (stepFGI df bt st s r)
    obtain ⟨ts1, h1⟩ := stepFGI_trades_prefix df bt st s r
    exact ⟨ts1 ++ ts2, by rw [List.foldl_cons, h2, h1, List.append_assoc]⟩

/-- While Flat, days whose sentiment is strictly above the buy threshold
leave the engine state unchanged. -/
theorem foldl_flat_skip (df : List Row) (bt st : ℚ) :
    ∀ (l : List Row) (s : EngineState), s.position = none →
      (∀ x ∈ l, bt < x.FGI) → l.foldl (stepFGI df bt st) s = s
  | [], _, _, _ => rfl
  | r :: l, s, hp, h => by
    have hr : ¬ r.FGI ≤ bt := not_le.mpr (h r (by simp))
    have hstep : stepFGI df bt st s r = s := by simp [stepFGI, hp, hr]
    rw [List.foldl_cons, hstep]
    exact foldl_flat_skip df bt st l s hp (fun x hx => h x (by simp [hx]))

/-- While Long, days whose sentiment is strictly below the sell threshold
leave the engine state unchanged. -/
theorem foldl_long_skip (df : List Row) (bt st : ℚ) :
    ∀ (l : List Row) (s : EngineState) (p : Nat × ℚ), s.position = some p →
      (∀ x ∈ l, x.FGI < st) → l.foldl (stepFGI df bt st) s = s
  | [], _, _, _, _ => rfl
  | r :: l, s, p, hp, h => by
    have hr : ¬ st ≤ r.FGI := not_le.mpr (h r (by simp))
    have hstep : stepFGI df bt st s r = s := by
      rcases p with ⟨bd, bp⟩
      simp [stepFGI, hp, hr]
    rw [List.foldl_cons, hstep]
    exact foldl_long_skip df bt st l s p hp (fun x hx => h x (by simp [hx]))

/-- The forced-liquidation block only ever appends to the loop's ledger. -/
theorem finalState_trades_prefix (bt st : ℚ) (df : List Row) :
    ∃ rest, (finalState bt st df).1 = (loopFGI bt st df).trades ++ rest := by
  rcases hp : (loopFGI bt st df).position with _ | ⟨bd, bp⟩ <;>
    rcases hl : df.getLast? with _ | lastR
  · exact ⟨[], by simp [finalState, hp, hl]⟩
  · exact ⟨[], by simp [finalState, hp, hl]⟩
  · exact ⟨[], by simp [finalState, hp, hl]⟩
  · refine ⟨[{ compra_data := bd, compra_preco := bp,
               compra_fgi := lookupFGI df bd,
               venda_data := lastR.date, venda_preco := lastR.Close,
               venda_fgi := lastR.FGI,
               retorno_pct := (lastR.Close - bp) / bp * 100,
               dias_trade := (lastR.date : Int) - (bd : Int),
               posicao_aberta := true }], ?_⟩
    simp [finalState, hp, hl]

/-- The empty-input branch of `run_fgi_strategy`. -/
theorem run_eq_empty (bt st : ℚ) :
    run_fgi_strategy [] bt st = { erro := some msgInsuficiente, total_dias := 0 } :=
  rfl

/-- The zero-trade branch of `run_fgi_strategy`. -/
theorem run_eq_nenhum (df0 : List Row) (bt st : ℚ) (h0 : df0 ≠ [])
    (h1 : (finalState bt st (sortRows df0)).1 = []) :
    run_fgi_strategy df0 bt st =
      { erro := some msgNenhumTrade
        periodo_inicio := ((sortRows df0).headD { date := 0, Open := 0, Close := 0, FGI := 0 }).date
        periodo_fim := ((sortRows df0).getLastD { date := 0, Open := 0, Close := 0, FGI := 0 }).date
        total_dias := (sortRows df0).length
        numero_trades := 0
        retorno_total_buy_hold_pct :=
          (((sortRows df0).getLastD { date := 0, Open := 0, Close := 0, FGI := 0 }).Close -
              ((sortRows df0).headD { date := 0, Open := 0, Close := 0, FGI := 0 }).Close) /
            ((sortRows df0).headD { date := 0, Open := 0, Close := 0, FGI := 0 }).Close * 100 } := by
  unfold run_fgi_strategy
  rw [if_neg h0]
  simp only [h1, if_pos]

/-- The main branch of `run_fgi_strategy`, expressed through `finalState`. -/
theorem run_eq_main (df0 : List Row) (bt st : ℚ) (h0 : df0 ≠ [])
    (h1 : (finalState bt st (sortRows df0)).1 ≠ []) :
    run_fgi_strategy df0 bt st =
      { periodo_inicio := ((sortRows df0).headD { date := 0, Open := 0, Close := 0, FGI := 0 }).date
        periodo_fim := ((sortRows df0).getLastD { date := 0, Open := 0, Close := 0, FGI := 0 }).date
        total_dias := (sortRows df0).length
        capital_inicial := 10000
        capital_final_estrategia := (finalState bt st (sortRows df0)).2
        retorno_total_estrategia_pct :=
          ((finalState bt st (sortRows df0)).2 - 10000) / 10000 * 100
        capital_final_buy_hold :=
          10000 * (1 +
            ((((sortRows df0).getLastD { date := 0, Open := 0, Close := 0, FGI := 0 }).Close -
                ((sortRows df0).headD { date := 0, Open := 0, Close := 0, FGI := 0 }).Close) /
              ((sortRows df0).headD { date := 0, Open := 0, Close := 0, FGI := 0 }).Close * 100) / 100)
        retorno_total_buy_hold_pct :=
          (((sortRows df0).getLastD { date := 0, Open := 0, Close := 0, FGI := 0 }).Close -
              ((sortRows df0).headD { date := 0, Open := 0, Close := 0, FGI := 0 }).Close) /
            ((sortRows df0).headD { date := 0, Open := 0, Close := 0, FGI := 0 }).Close * 100
        numero_trades := (finalState bt st (sortRows df0)).1.length
        trades_positivos :=
          ((finalState bt st (sortRows df0)).1.filter (fun t => decide (0 < t.retorno_pct))).length
        trades_negativos :=
          ((finalState bt st (sortRows df0)).1.filter (fun t => decide (t.retorno_pct ≤ 0))).length
        taxa_acerto_pct :=
          (((finalState bt st (sortRows df0)).1.filter
              (fun t => decide (0 < t.retorno_pct))).length : ℚ) /
            ((finalState bt st (sortRows df0)).1.length : ℚ) * 100
        trades_detalhados := (finalState bt st (sortRows df0)).1 } := by
  unfold run_fgi_strategy
  rw [if_neg h0]
  simp only [h1, if_neg, if_false]

/-- For every nonempty input, the reported detailed-trade list is the ledger
produced by the loop plus forced liquidation. -/
theorem run_trades_eq (df0 : List Row) (bt st : ℚ) (h0 : df0 ≠ []) :
    (run_fgi_strategy df0 bt st).trades_detalhados = (finalState bt st (sortRows df0)).1 := by
  by_cases h1 : (finalState bt st (sortRows df0)).1 = []
  · rw [run_eq_nenhum df0 bt st h0 h1, h1]
  · rw [run_eq_main df0 bt st h0 h1]

/-- Every trade appended by a loop step is a signal trade
(`posicao_aberta = false`). -/
theorem stepFGI_flags (df : List Row) (bt st : ℚ) (s : EngineState) (r : Row)
    (h : ∀ t ∈ s.trades, t.posicao_aberta = false) :
    ∀ t ∈ (stepFGI df bt st s r).trades, t.posicao_aberta = false := by
  intro t ht
  rcases hp : s.position with _ | ⟨bd, bp⟩
  · by_cases hc : r.FGI ≤ bt
    · rw [show (stepFGI df bt st s r).trades = s.trades from by simp [stepFGI, hp, hc]] at ht
      exact h t ht
    · rw [show (stepFGI df bt st s r).trades = s.trades from by simp [stepFGI, hp, hc]] at ht
      exact h t ht
  · by_cases hc : st ≤ r.FGI
    · rw [show (stepFGI df bt st s r).trades = s.trades ++
          [{ compra_data := bd, compra_preco := bp,
             compra_fgi := lookupFGI df bd,
             venda_data := r.date, venda_preco := r.Close, venda_fgi := r.FGI,
             retorno_pct := (r.Close - bp) / bp * 100,
             dias_trade := (r.date : Int) - (bd : Int),
             posicao_aberta := false }] from by simp [stepFGI, hp, hc]] at ht
      rcases List.mem_append.mp ht with h2 | h2
      · exact h t h2
      · simp only [List.mem_singleton] at h2
        subst h2
        rfl
    · rw [show (stepFGI df bt st s r).trades = s.trades from by simp [stepFGI, hp, hc]] at ht
      exact h t ht

/-- Every trade in the loop's ledger is a signal trade. -/
theorem foldl_flags (df : List Row) (bt st : ℚ) :
    ∀ (l : List Row) (s : EngineState),
      (∀ t ∈ s.trades, t.posicao_aberta = false) →
      ∀ t ∈ (l.foldl (stepFGI df bt st) s).trades, t.posicao_aberta = false
  | [], _, h => h
  | r :: l, s, h => by
    rw [List.foldl_cons]
    exact foldl_flags df bt st l (stepFGI df bt st s r) (stepFGI_flags df bt st s r h)

/-- Every ledger has as many buy legs as sell legs: each record carries
exactly one of each. -/
theorem ledgerLegs_count :
    ∀ ts : List Trade,
      (ledgerLegs ts).countP (fun leg => leg.side == Side.buy) =
        (ledgerLegs ts).countP (fun leg => leg.side == Side.sell)
  | [] => rfl
  | t :: ts => by
    show ((tradeLegs t ++ ledgerLegs ts).countP _) = ((tradeLegs t ++ ledgerLegs ts).countP _)
    rw [List.countP_append, List.countP_append, ledgerLegs_count ts]
    have hb : (tradeLegs t).countP (fun leg => leg.side == Side.buy) = 1 := by
      simp [tradeLegs, List.countP_cons]
    have hs2 : (tradeLegs t).countP (fun leg => leg.side == Side.sell) = 1 := by
      simp [tradeLegs, List.countP_cons]
    rw [hb, hs2]

/-- Buy-leg count equals sell-leg count in every ledger. -/
theorem countLegs_buy_eq_sell (ts : List Trade) :
    countLegs Side.buy ts = countLegs Side.sell ts :=
  ledgerLegs_count ts

/-- The last element of a list is a member. -/
theorem getLast?_mem_rows :
    ∀ (l : List Row) (a : Row), l.getLast? = some a → a ∈ l
  | [], _, h => by simp at h
  | [b], a, h => by
    simp at h
    simp [h]
  | b :: c :: l, a, h => by
    rw [List.getLast?_cons_cons] at h
    exact List.mem_cons_of_mem _ (getLast?_mem_rows (c :: l) a h)

/-- In a strictly date-sorted series, every row's date is bounded by the
last row's date. -/
theorem date_le_getLast :
    ∀ (l : List Row), l.Pairwise (fun a b => a.date < b.date) →
      ∀ x ∈ l, ∀ lastR, l.getLast? = some lastR → x.date ≤ lastR.date
  | [], _, x, hx, _, _ => absurd hx (by simp)
  | [b], _, x, hx, lastR, hl => by
    simp at hx hl
    subst hx
    subst hl
    exact le_refl _
  | b :: c :: l, hp, x, hx, lastR, hl => by
    rw [List.getLast?_cons_cons] at hl
    rcases List.mem_cons.mp hx with rfl | hx2
    · have hmem : lastR ∈ c :: l := getLast?_mem_rows (c :: l) lastR hl
      exact le_of_lt ((List.pairwise_cons.mp hp).1 lastR hmem)
    · exact date_le_getLast (c :: l) (List.pairwise_cons.mp hp).2 x hx2 lastR hl

/-- Chronology invariant of the day loop: over a strictly date-sorted
remainder, the loop preserves — and extends — a ledger whose records are
internally ordered (`compra ≤ venda`), pairwise non-overlapping, and older
than every remaining day; an open position was opened either before the
remainder or on one of its days. -/
theorem loop_chron (df : List Row) (bt st : ℚ) :
    ∀ (l : List Row) (s : EngineState),
      l.Pairwise (fun a b => a.date < b.date) →
      (∀ t ∈ s.trades, t.compra_data ≤ t.venda_data) →
      s.trades.Pairwise (fun a b => a.venda_data < b.compra_data) →
      (∀ t ∈ s.trades, ∀ x ∈ l, t.venda_data < x.date) →
      (∀ bd bp, s.position = some (bd, bp) →
        (∀ t ∈ s.trades, t.venda_data < bd) ∧ (∀ x ∈ l, bd < x.date)) →
      (∀ t ∈ (l.foldl (stepFGI df bt st) s).trades, t.compra_data ≤ t.venda_data) ∧
      (l.foldl (stepFGI df bt st) s).trades.Pairwise
        (fun a b => a.venda_data < b.compra_data) ∧
      (∀ bd bp, (l.foldl (stepFGI df bt st) s).position = some (bd, bp) →
        (∀ t ∈ (l.foldl (stepFGI df bt st) s).trades, t.venda_data < bd) ∧
        (s.position = some (bd, bp) ∨ ∃ x ∈ l, x.date = bd))
  | [], s, _, h1, h2, _, h5 =>
    ⟨h1, h2, fun bd bp hp => ⟨(h5 bd bp hp).1, Or.inl hp⟩⟩
  | r :: l, s, hl, h1, h2, h4, h5 => by
    have hl1 : ∀ x ∈ l, r.date < x.date := (List.pairwise_cons.mp hl).1
    have hl2 : l.Pairwise (fun a b => a.date < b.date) := (List.pairwise_cons.mp hl).2
    rw [List.foldl_cons]
    rcases hp : s.position with _ | ⟨bd0, bp0⟩
    · by_cases hc : r.FGI ≤ bt
      · -- Buy fires: position opens at (r.date, r.Close), ledger unchanged
        have hstep : stepFGI df bt st s r =
            { s with position := some (r.date, r.Close) } := by
          simp [stepFGI, hp, hc]
        rw [hstep]
        obtain ⟨c1, c2, c3⟩ :=
          loop_chron df bt st l { s with position := some (r.date, r.Close) } hl2 h1 h2
            (fun t ht x hx => h4 t ht x (List.mem_cons_of_mem r hx))
            (by
              intro bd bp hbd
              simp only [Option.some.injEq, Prod.mk.injEq] at hbd
              obtain ⟨hbd1, _⟩ := hbd
              subst hbd1
              exact ⟨fun t ht => h4 t ht r (List.mem_cons_self r l), hl1⟩)
        refine ⟨c1, c2, fun bd bp hpos => ?_⟩
        obtain ⟨d1, d2⟩ := c3 bd bp hpos
        refine ⟨d1, ?_⟩
        rcases d2 with d2 | ⟨x, hx, hxd⟩
        · simp only [Option.some.injEq, Prod.mk.injEq] at d2
          exact Or.inr ⟨r, List.mem_cons_self r l, d2.1⟩
        · exact Or.inr ⟨x, List.mem_cons_of_mem r hx, hxd⟩
      · -- Flat, no signal: state unchanged
        have hstep : stepFGI df bt st s r = s := by simp [stepFGI, hp, hc]
        rw [hstep]
        obtain ⟨c1, c2, c3⟩ := loop_chron df bt st l s hl2 h1 h2
          (fun t ht x hx => h4 t ht x (List.mem_cons_of_mem r hx))
          (fun bd bp hbd => ⟨(h5 bd bp hbd).1,
            fun x hx => (h5 bd bp hbd).2 x (List.mem_cons_of_mem r hx)⟩)
        refine ⟨c1, c2, fun bd bp hpos => ?_⟩
        obtain ⟨d1, d2⟩ := c3 bd bp hpos
        refine ⟨d1, ?_⟩
        rcases d2 with d2 | ⟨x, hx, hxd⟩
        · rw [hp] at d2
          simp at d2
        · exact Or.inr ⟨x, List.mem_cons_of_mem r hx, hxd⟩
    · by_cases hc : st ≤ r.FGI
      · -- Sell fires: the record (bd0 → r.date) is appended, position closes
        have hbd0 := h5 bd0 bp0 hp
        have hstep : stepFGI df bt st s r =
            { position := none
              capital := s.capital * (1 + ((r.Close - bp0) / bp0 * 100) / 100)
              trades := s.trades ++
                [{ compra_data := bd0, compra_preco := bp0,
                   compra_fgi := lookupFGI df bd0,
                   venda_data := r.date, venda_preco := r.Close, venda_fgi := r.FGI,
                   retorno_pct := (r.Close - bp0) / bp0 * 100,
                   dias_trade := (r.date : Int) - (bd0 : Int),
                   posicao_aberta := false }] } := by
          simp [stepFGI, hp, hc]
        rw [hstep]
        obtain ⟨c1, c2, c3⟩ :=
          loop_chron df bt st l
            { position := none
              capital := s.capital * (1 + ((r.Close - bp0) / bp0 * 100) / 100)
              trades := s.trades ++
                [{ compra_data := bd0, compra_preco := bp0,
                   compra_fgi := lookupFGI df bd0,
                   venda_data := r.date, venda_preco := r.Close, venda_fgi := r.FGI,
                   retorno_pct := (r.Close - bp0) / bp0 * 100,
                   dias_trade := (r.date : Int) - (bd0 : Int),
                   posicao_aberta := false }] } hl2
            (by
              intro t ht
              rcases List.mem_append.mp ht with h6 | h6
              · exact h1 t h6
              · simp only [List.mem_singleton] at h6
                subst h6
                exact le_of_lt (hbd0.2 r (List.mem_cons_self r l)))
            (by
              rw [List.pairwise_append]
              refine ⟨h2, by simp, ?_⟩
              intro a ha b hb
              simp only [List.mem_singleton] at hb
              subst hb
              exact hbd0.1 a ha)
            (by
              intro t ht x hx
              rcases List.mem_append.mp ht with h6 | h6
              · exact h4 t h6 x (List.mem_cons_of_mem r hx)
              · simp only [List.mem_singleton] at h6
                subst h6
                exact hl1 x hx)
            (by
              intro bd bp hbd
              simp at hbd)
        refine ⟨c1, c2, fun bd bp hpos => ?_⟩
        obtain ⟨d1, d2⟩ := c3 bd bp hpos
        refine ⟨d1, ?_⟩
        rcases d2 with d2 | ⟨x, hx, hxd⟩
        · simp at d2
        · exact Or.inr ⟨x, List.mem_cons_of_mem r hx, hxd⟩
      · -- Long, no signal: state unchanged
        have hstep : stepFGI df bt st s r = s := by simp [stepFGI, hp, hc]
        rw [hstep]
        obtain ⟨c1, c2, c3⟩ := loop_chron df bt st l s hl2 h1 h2
          (fun t ht x hx => h4 t ht x (List.mem_cons_of_mem r hx))
          (fun bd bp hbd => ⟨(h5 bd bp hbd).1,
            fun x hx => (h5 bd bp hbd).2 x (List.mem_cons_of_mem r hx)⟩)
        refine ⟨c1, c2, fun bd bp hpos => ?_⟩
        obtain ⟨d1, d2⟩ := c3 bd bp hpos
        refine ⟨d1, ?_⟩
        rcases d2 with d2 | ⟨x, hx, hxd⟩
        · rw [hp] at d2
          exact Or.inl d2
        · exact Or.inr ⟨x, List.mem_cons_of_mem r hx, hxd⟩

/-- C10: for every strictly date-sorted input series, the emitted ledger is
chronologically consistent: each record's buy date is on or before its sell
date, every earlier record's sell date is strictly before every later
record's buy date (so successive records do not overlap), and every record
except possibly the last is a signal trade — only the final record can be
the forced closure of an open position. -/
theorem ledger_chronology (df0 : List Row) (bt st : ℚ)
    (hsorted : df0.Pairwise (fun a b => a.date < b.date)) :
    (∀ t ∈ (run_fgi_strategy df0 bt st).trades_detalhados,
      t.compra_data ≤ t.venda_data) ∧
    List.Chain' (fun a b => a.venda_data < b.compra_data)
      (run_fgi_strategy df0 bt st).trades_detalhados ∧
    (∀ t ∈ (run_fgi_strategy df0 bt st).trades_detalhados.dropLast,
      t.posicao_aberta = false) := by
  by_cases h0 : df0 = []
  · subst h0
    rw [run_eq_empty]
    simp
  · have hsort : sortRows df0 = df0 :=
      List.Sorted.insertionSort_eq (hsorted.imp fun h => le_of_lt h)
    have htr := run_trades_eq df0 bt st h0
    rw [hsort] at htr
    have hloopdef : loopFGI bt st df0 = df0.foldl (stepFGI df0 bt st) initState := rfl
    obtain ⟨c1, c2, c3⟩ := loop_chron df0 bt st df0 initState hsorted
      (by simp [initState]) (by simp [initState]) (by simp [initState])
      (by intro bd bp h; simp [initState] at h)
    rw [← hloopdef] at c1 c2 c3
    have hflags : ∀ t ∈ (loopFGI bt st df0).trades, t.posicao_aberta = false := by
      intro t ht
      rw [hloopdef] at ht
      exact foldl_flags df0 bt st df0 initState (by simp [initState]) t ht
    rcases hp : (loopFGI bt st df0).position with _ | ⟨bd, bp⟩
    · have hfin : (finalState bt st df0).1 = (loopFGI bt st df0).trades := by
        unfold finalState
        rcases hlast2 : df0.getLast? with _ | lastR <;> simp [hp, hlast2]
      rw [htr, hfin]
      exact ⟨c1, c2.chain',
        fun t ht => hflags t (List.IsPrefix.subset (List.dropLast_prefix _) ht)⟩
    · rcases hlast : df0.getLast? with _ | lastR
      · rw [List.getLast?_eq_none_iff] at hlast
        exact absurd hlast h0
      · have hfin : (finalState bt st df0).1 = (loopFGI bt st df0).trades ++
            [{ compra_data := bd, compra_preco := bp,
               compra_fgi := lookupFGI df0 bd,
               venda_data := lastR.date, venda_preco := lastR.Close,
               venda_fgi := lastR.FGI,
               retorno_pct := (lastR.Close - bp) / bp * 100,
               dias_trade := (lastR.date : Int) - (bd : Int),
               posicao_aberta := true }] := by
          unfold finalState
          simp [hp, hlast]
        obtain ⟨d1, d2⟩ := c3 bd bp hp
        rcases d2 with d2 | ⟨x, hx, hxd⟩
        · simp [initState] at d2
        · have hbdle : bd ≤ lastR.date := by
            rw [← hxd]
            exact date_le_getLast df0 hsorted x hx lastR hlast
          rw [htr, hfin]
          refine ⟨?_, ?_, ?_⟩
          · intro t ht
            rcases List.mem_append.mp ht with h6 | h6
            · exact c1 t h6
            · simp only [List.mem_singleton] at h6
              subst h6
              exact hbdle
          · refine List.Pairwise.chain' ?_
            rw [List.pairwise_append]
            refine ⟨c2, by simp, ?_⟩
            intro a ha b hb
            simp only [List.mem_singleton] at hb
            subst hb
            exact d1 a ha
          · intro t ht
            rw [List.dropLast_concat] at ht
            exact hflags t ht

/-- C10 (witness): a concrete sorted run — one completed signal trade and a
same-day forced closure of the position reopened on the final day — has a
chronologically consistent ledger. -/
theorem ledger_chronology_witness :
    (∀ t ∈ (run_fgi_strategy
        [{ date := 1, Open := 0, Close := 100, FGI := 20 },
         { date := 2, Open := 0, Close := 110, FGI := 80 },
         { date := 3, Open := 0, Close := 50, FGI := 10 }] 30 70).trades_detalhados,
      t.compra_data ≤ t.venda_data) ∧
    List.Chain' (fun a b => a.venda_data < b.compra_data)
      (run_fgi_strategy
        [{ date := 1, Open := 0, Close := 100, FGI := 20 },
         { date := 2, Open := 0, Close := 110, FGI := 80 },
         { date := 3, Open := 0, Close := 50, FGI := 10 }] 30 70).trades_detalhados ∧
    (∀ t ∈ (run_fgi_strategy
        [{ date := 1, Open := 0, Close := 100, FGI := 20 },
         { date := 2, Open := 0, Close := 110, FGI := 80 },
         { date := 3, Open := 0, Close := 50, FGI := 10 }] 30 70).trades_detalhados.dropLast,
      t.posicao_aberta = false) :=
  ledger_chronology
    [{ date := 1, Open := 0, Close := 100, FGI := 20 },
     { date := 2, Open := 0, Close := 110, FGI := 80 },
     { date := 3, Open := 0, Close := 50, FGI := 10 }] 30 70 (by decide)

/-- C6: for every nonempty input, (a) if the engine is still Long after the
last day, the reported ledger is the loop's ledger plus one final record
selling at the last row's close price, marked `posicao_aberta = true` —
distinguishable in kind from every signal trade, since (b) every loop trade
is marked `false`; and (c) in every run the number of Buy legs of the
reported ledger equals the number of Sell legs. -/
theorem forced_liquidation_closes_ledger (df0 : List Row) (bt st : ℚ) (h0 : df0 ≠ []) :
    (∀ bd bp, (loopFGI bt st (sortRows df0)).position = some (bd, bp) →
      ∃ lastR, (sortRows df0).getLast? = some lastR ∧
        (run_fgi_strategy df0 bt st).trades_detalhados =
          (loopFGI bt st (sortRows df0)).trades ++
            [{ compra_data := bd, compra_preco := bp,
               compra_fgi := lookupFGI (sortRows df0) bd,
               venda_data := lastR.date, venda_preco := lastR.Close,
               venda_fgi := lastR.FGI,
               retorno_pct := (lastR.Close - bp) / bp * 100,
               dias_trade := (lastR.date : Int) - (bd : Int),
               posicao_aberta := true }]) ∧
    (∀ t ∈ (loopFGI bt st (sortRows df0)).trades, t.posicao_aberta = false) ∧
    countLegs Side.buy (run_fgi_strategy df0 bt st).trades_detalhados =
      countLegs Side.sell (run_fgi_strategy df0 bt st).trades_detalhados := by
  have hsne : sortRows df0 ≠ [] := by
    intro h
    apply h0
    have hlen := congrArg List.length h
    simp only [sortRows, List.length_insertionSort] at hlen
    exact List.length_eq_zero.mp hlen
  refine ⟨?_, ?_, countLegs_buy_eq_sell _⟩
  · intro bd bp hp
    rcases hlast : (sortRows df0).getLast? with _ | lastR
    · rw [List.getLast?_eq_none_iff] at hlast
      exact absurd hlast hsne
    · refine ⟨lastR, rfl, ?_⟩
      rw [run_trades_eq df0 bt st h0]
      unfold finalState
      simp [hp, hlast]
  · intro t ht
    exact foldl_flags (sortRows df0) bt st (sortRows df0) initState
      (by simp [initState]) t ht

/-- C6 (witness): a concrete run that ends Long: the buy of day 1 is closed
by a forced sell at the last close 120, flagged `posicao_aberta = true`, and
buy legs equal sell legs. -/
theorem forced_liquidation_closes_ledger_witness :
    (∀ bd bp, (loopFGI 30 70 (sortRows
        [{ date := 1, Open := 0, Close := 100, FGI := 20 },
         { date := 2, Open := 0, Close := 120, FGI := 50 }])).position = some (bd, bp) →
      ∃ lastR, (sortRows
        [{ date := 1, Open := 0, Close := 100, FGI := 20 },
         { date := 2, Open := 0, Close := 120, FGI := 50 }]).getLast? = some lastR ∧
        (run_fgi_strategy
          [{ date := 1, Open := 0, Close := 100, FGI := 20 },
           { date := 2, Open := 0, Close := 120, FGI := 50 }] 30 70).trades_detalhados =
          (loopFGI 30 70 (sortRows
            [{ date := 1, Open := 0, Close := 100, FGI := 20 },
             { date := 2, Open := 0, Close := 120, FGI := 50 }])).trades ++
            [{ compra_data := bd, compra_preco := bp,
               compra_fgi := lookupFGI (sortRows
                 [{ date := 1, Open := 0, Close := 100, FGI := 20 },
                  { date := 2, Open := 0, Close := 120, FGI := 50 }]) bd,
               venda_data := lastR.date, venda_preco := lastR.Close,
               venda_fgi := lastR.FGI,
               retorno_pct := (lastR.Close - bp) / bp * 100,
               dias_trade := (lastR.date : Int) - (bd : Int),
               posicao_aberta := true }]) ∧
    (∀ t ∈ (loopFGI 30 70 (sortRows
        [{ date := 1, Open := 0, Close := 100, FGI := 20 },
         { date := 2, Open := 0, Close := 120, FGI := 50 }])).trades,
      t.posicao_aberta = false) ∧
    countLegs Side.buy (run_fgi_strategy
      [{ date := 1, Open := 0, Close := 100, FGI := 20 },
       { date := 2, Open := 0, Close := 120, FGI := 50 }] 30 70).trades_detalhados =
      countLegs Side.sell (run_fgi_strategy
        [{ date := 1, Open := 0, Close := 100, FGI := 20 },
         { date := 2, Open := 0, Close := 120, FGI := 50 }] 30 70).trades_detalhados :=
  forced_liquidation_closes_ledger
    [{ date := 1, Open := 0, Close := 100, FGI := 20 },
     { date := 2, Open := 0, Close := 120, FGI := 50 }] 30 70 (by decide)

/-- Price invariant of the day loop: over rows with positive closes, every
ledger record has a positive entry price and its `retorno_pct` is the
percentage return `(venda − compra)/compra × 100`; an open position's entry
price is positive. -/
theorem loop_price (df : List Row) (bt st : ℚ) :
    ∀ (l : List Row) (s : EngineState),
      (∀ r ∈ l, 0 < r.Close) →
      (∀ t ∈ s.trades, 0 < t.compra_preco ∧
        t.retorno_pct = (t.venda_preco - t.compra_preco) / t.compra_preco * 100) →
      (∀ bd bp, s.position = some (bd, bp) → 0 < bp) →
      (∀ t ∈ (l.foldl (stepFGI df bt st) s).trades, 0 < t.compra_preco ∧
        t.retorno_pct = (t.venda_preco - t.compra_preco) / t.compra_preco * 100) ∧
      (∀ bd bp, (l.foldl (stepFGI df bt st) s).position = some (bd, bp) → 0 < bp)
  | [], _, _, h1, h2 => ⟨h1, h2⟩
  | r :: l, s, hpx, h1, h2 => by
    have hpxr : 0 < r.Close := hpx r (by simp)
    have hpxl : ∀ x ∈ l, 0 < x.Close := fun x hx => hpx x (by simp [hx])
    rw [List.foldl_cons]
    rcases hp : s.position with _ | ⟨bd0, bp0⟩
    · by_cases hc : r.FGI ≤ bt
      · have hstep : stepFGI df bt st s r =
            { s with position := some (r.date, r.Close) } := by
          simp [stepFGI, hp, hc]
        rw [hstep]
        exact loop_price df bt st l _ hpxl h1 (by
          intro bd bp hbd
          simp only [Option.some.injEq, Prod.mk.injEq] at hbd
          rw [← hbd.2]
          exact hpxr)
      · have hstep : stepFGI df bt st s r = s := by simp [stepFGI, hp, hc]
        rw [hstep]
        exact loop_price df bt st l s hpxl h1 h2
    · by_cases hc : st ≤ r.FGI
      · have hbp0 : 0 < bp0 := h2 bd0 bp0 hp
        have hstep : stepFGI df bt st s r =
            { position := none
              capital := s.capital * (1 + ((r.Close - bp0) / bp0 * 100) / 100)
              trades := s.trades ++
                [{ compra_data := bd0, compra_preco := bp0,
                   compra_fgi := lookupFGI df bd0,
                   venda_data := r.date, venda_preco := r.Close, venda_fgi := r.FGI,
                   retorno_pct := (r.Close - bp0) / bp0 * 100,
                   dias_trade := (r.date : Int) - (bd0 : Int),
                   posicao_aberta := false }] } := by
          simp [stepFGI, hp, hc]
        rw [hstep]
        refine loop_price df bt st l _ hpxl (by
          intro t ht
          rcases List.mem_append.mp ht with h6 | h6
          · exact h1 t h6
          · simp only [List.mem_singleton] at h6
            subst h6
            exact ⟨hbp0, rfl⟩) (by
          intro bd bp hbd
          simp at hbd)
      · have hstep : stepFGI df bt st s r = s := by simp [stepFGI, hp, hc]
        rw [hstep]
        exact loop_price df bt st l s hpxl h1 h2

/-- Positivity of the percentage return is exactly a strict rise of the
price, given a positive entry price. -/
theorem retorno_pos_iff (c v : ℚ) (hc : 0 < c) :
    0 < (v - c) / c * 100 ↔ c < v := by
  rw [div_mul_eq_mul_div, lt_div_iff₀ hc, zero_mul]
  constructor
  · intro h
    nlinarith
  · intro h
    nlinarith

/-- Every record of the reported ledger (loop trades and the forced closure
alike) has a positive entry price and the percentage-return form of
`retorno_pct`, provided all closes are positive. -/
theorem finalState_price (df0 : List Row) (bt st : ℚ)
    (hpx : ∀ r ∈ df0, 0 < r.Close) :
    ∀ t ∈ (finalState bt st (sortRows df0)).1, 0 < t.compra_preco ∧
      t.retorno_pct = (t.venda_preco - t.compra_preco) / t.compra_preco * 100 := by
  have hpxs : ∀ r ∈ sortRows df0, 0 < r.Close := by
    intro r hr
    simp only [sortRows, List.mem_insertionSort] at hr
    exact hpx r hr
  obtain ⟨i1, i2⟩ := loop_price (sortRows df0) bt st (sortRows df0) initState hpxs
    (by simp [initState]) (by intro bd bp h; simp [initState] at h)
  intro t ht
  unfold finalState at ht
  rcases hp : (loopFGI bt st (sortRows df0)).position with _ | ⟨bd, bp⟩ <;>
    rcases hl : (sortRows df0).getLast? with _ | lastR <;>
    simp only [hp, hl] at ht
  · exact i1 t ht
  · exact i1 t ht
  · exact i1 t ht
  · rcases List.mem_append.mp ht with h6 | h6
    · exact i1 t h6
    · simp only [List.mem_singleton] at h6
      subst h6
      exact ⟨i2 bd bp hp, rfl⟩

/-- C8: for every run over positive close prices that reports a non-empty
ledger, the reported win rate equals the fraction of ledger records whose
exit price strictly exceeds the entry price (times 100).  Every ledger
record is a completed Buy→Sell pair — the forced closure included — so the
pairing never relies on positional parity of unpaired legs. -/
theorem win_rate_counts_winning_pairs (df0 : List Row) (bt st : ℚ)
    (hpx : ∀ r ∈ df0, 0 < r.Close)
    (hne : (run_fgi_strategy df0 bt st).trades_detalhados ≠ []) :
    (run_fgi_strategy df0 bt st).taxa_acerto_pct =
      (((run_fgi_strategy df0 bt st).trades_detalhados.filter
          (fun t => decide (t.compra_preco < t.venda_preco))).length : ℚ) /
        ((run_fgi_strategy df0 bt st).trades_detalhados.length : ℚ) * 100 := by
  by_cases h0 : df0 = []
  · subst h0
    rw [run_eq_empty] at hne
    simp at hne
  · have h1 : (finalState bt st (sortRows df0)).1 ≠ [] := by
      intro h
      apply hne
      rw [run_trades_eq df0 bt st h0, h]
    have hinv := finalState_price df0 bt st hpx
    have hfc : (finalState bt st (sortRows df0)).1.filter
          (fun t => decide (0 < t.retorno_pct)) =
        (finalState bt st (sortRows df0)).1.filter
          (fun t => decide (t.compra_preco < t.venda_preco)) := by
      refine List.filter_congr ?_
      intro t ht
      obtain ⟨hpos, hform⟩ := hinv t ht
      refine decide_eq_decide.mpr ?_
      rw [hform]
      exact retorno_pos_iff _ _ hpos
    rw [run_trades_eq df0 bt st h0, run_eq_main df0 bt st h0 h1]
    show (((finalState bt st (sortRows df0)).1.filter
        (fun t => decide (0 < t.retorno_pct))).length : ℚ) /
        (((finalState bt st (sortRows df0)).1.length : ℚ)) * 100 =
      (((finalState bt st (sortRows df0)).1.filter
        (fun t => decide (t.compra_preco < t.venda_preco))).length : ℚ) /
        (((finalState bt st (sortRows df0)).1.length : ℚ)) * 100
    rw [hfc]

/-- C8 (witness): the five-day scenario run has one trade, a winner, and its
reported win rate of 100 equals the winning-pair fraction times 100. -/
theorem win_rate_counts_winning_pairs_witness :
    (run_fgi_strategy
      [{ date := 1, Open := 0, Close := 100, FGI := 50 },
       { date := 2, Open := 0, Close := 90, FGI := 25 },
       { date := 3, Open := 0, Close := 80, FGI := 20 },
       { date := 4, Open := 0, Close := 70, FGI := 60 },
       { date := 5, Open := 0, Close := 110, FGI := 75 }] 30 70).taxa_acerto_pct =
      (((run_fgi_strategy
          [{ date := 1, Open := 0, Close := 100, FGI := 50 },
           { date := 2, Open := 0, Close := 90, FGI := 25 },
           { date := 3, Open := 0, Close := 80, FGI := 20 },
           { date := 4, Open := 0, Close := 70, FGI := 60 },
           { date := 5, Open := 0, Close := 110, FGI := 75 }] 30 70).trades_detalhados.filter
          (fun t => decide (t.compra_preco < t.venda_preco))).length : ℚ) /
        ((run_fgi_strategy
          [{ date := 1, Open := 0, Close := 100, FGI := 50 },
           { date := 2, Open := 0, Close := 90, FGI := 25 },
           { date := 3, Open := 0, Close := 80, FGI := 20 },
           { date := 4, Open := 0, Close := 70, FGI := 60 },
           { date := 5, Open := 0, Close := 110, FGI := 75 }] 30 70).trades_detalhados.length : ℚ)
        * 100 :=
  win_rate_counts_winning_pairs
    [{ date := 1, Open := 0, Close := 100, FGI := 50 },
     { date := 2, Open := 0, Close := 90, FGI := 25 },
     { date := 3, Open := 0, Close := 80, FGI := 20 },
     { date := 4, Open := 0, Close := 70, FGI := 60 },
     { date := 5, Open := 0, Close := 110, FGI := 75 }] 30 70
    (by decide) (by decide)

/-- C1 (counterexample): on the two-day series with sentiment exactly equal to
`buyBelow = 30` on day 1 while Flat, the engine does fire a Buy (at day 1,
price 100, sentiment 30) and later a Sell at sentiment 80 ≥ 70 — so a day
where sentiment exactly equals `buyBelow` does trigger a transition,
contradicting the claim that equality triggers none. -/
theorem equal_threshold_triggers_buy :
    (run_fgi_strategy
      [{ date := 1, Open := 0, Close := 100, FGI := 30 },
       { date := 2, Open := 0, Close := 110, FGI := 80 }] 30 70).trades_detalhados =
      [{ compra_data := 1, compra_preco := 100, compra_fgi := 30,
         venda_data := 2, venda_preco := 110, venda_fgi := 80,
         retorno_pct := 10, dias_trade := 1, posicao_aberta := false }] ∧
    ((30 : ℚ) < 30) = False := by
  constructor
  · norm_num [run_fgi_strategy, sortRows, List.insertionSort, List.orderedInsert,
      finalState, loopFGI, initState, stepFGI, lookupFGI, List.find?,
      Trade.mk.injEq, List.cons_ne_nil]
  · simp

/-- C1 (amended): for every date-sorted series split as
`l1 ++ b :: l2 ++ sr :: l3` where every day of `l1` has sentiment strictly
above `bt`, day `b` has sentiment `≤ bt` (inclusive!), every day of `l2` has
sentiment strictly below `st` and day `sr` has sentiment `≥ st` (inclusive!),
the first ledger entry records the Buy fired on `b` — the first day with
`sentiment ≤ buyBelow` while Flat — and the Sell fired on `sr` — the first
subsequent day with `sentiment ≥ sellAbove` while Long.  The transitions use
non-strict comparisons, so threshold equality fires them. -/
theorem transitions_fire_on_inclusive_thresholds (bt st : ℚ)
    (l1 : List Row) (b : Row) (l2 : List Row) (sr : Row) (l3 : List Row)
    (hsorted : (l1 ++ b :: l2 ++ sr :: l3).Pairwise (fun x y => x.date < y.date))
    (h1 : ∀ x ∈ l1, bt < x.FGI) (hb : b.FGI ≤ bt)
    (h2 : ∀ x ∈ l2, x.FGI < st) (hs : st ≤ sr.FGI) :
    ∃ t ts2,
      (run_fgi_strategy (l1 ++ b :: l2 ++ sr :: l3) bt st).trades_detalhados = t :: ts2 ∧
      t.compra_data = b.date ∧ t.compra_preco = b.Close ∧
      t.venda_data = sr.date ∧ t.venda_preco = sr.Close ∧ t.posicao_aberta = false := by
  have hne : (l1 ++ b :: l2 ++ sr :: l3) ≠ [] := by cases l1 <;> simp
  have hsort : sortRows (l1 ++ b :: l2 ++ sr :: l3) = l1 ++ b :: l2 ++ sr :: l3 :=
    List.Sorted.insertionSort_eq (hsorted.imp (fun h => le_of_lt h))
  have hstep1 : stepFGI (l1 ++ b :: l2 ++ sr :: l3) bt st initState b =
      { position := some (b.date, b.Close), capital := 10000, trades := [] } := by
    simp [stepFGI, initState, hb]
  have hskip1 : List.foldl (stepFGI (l1 ++ b :: l2 ++ sr :: l3) bt st) initState l1 =
      initState :=
    foldl_flat_skip _ bt st l1 initState rfl h1
  have hskip2 : List.foldl (stepFGI (l1 ++ b :: l2 ++ sr :: l3) bt st)
      { position := some (b.date, b.Close), capital := 10000, trades := [] } l2 =
      { position := some (b.date, b.Close), capital := 10000, trades := [] } :=
    foldl_long_skip _ bt st l2 _ (b.date, b.Close) rfl h2
  have hstep2 : stepFGI (l1 ++ b :: l2 ++ sr :: l3) bt st
      { position := some (b.date, b.Close), capital := 10000, trades := [] } sr =
      { position := none
        capital := 10000 * (1 + ((sr.Close - b.Close) / b.Close * 100) / 100)
        trades := [{ compra_data := b.date, compra_preco := b.Close,
                     compra_fgi := lookupFGI (l1 ++ b :: l2 ++ sr :: l3) b.date,
                     venda_data := sr.date, venda_preco := sr.Close, venda_fgi := sr.FGI,
                     retorno_pct := (sr.Close - b.Close) / b.Close * 100,
                     dias_trade := (sr.date : Int) - (b.date : Int),
                     posicao_aberta := false }] } := by
    simp [stepFGI, hs]
  have hA : List.foldl (stepFGI (l1 ++ b :: l2 ++ sr :: l3) bt st) initState (b :: l2) =
      { position := some (b.date, b.Close), capital := 10000, trades := [] } := by
    rw [List.foldl_cons, hstep1, hskip2]
  have hB : List.foldl (stepFGI (l1 ++ b :: l2 ++ sr :: l3) bt st)
      { position := some (b.date, b.Close), capital := 10000, trades := [] } (sr :: l3) =
      List.foldl (stepFGI (l1 ++ b :: l2 ++ sr :: l3) bt st)
        { position := none
          capital := 10000 * (1 + ((sr.Close - b.Close) / b.Close * 100) / 100)
          trades := [{ compra_data := b.date, compra_preco := b.Close,
                       compra_fgi := lookupFGI (l1 ++ b :: l2 ++ sr :: l3) b.date,
                       venda_data := sr.date, venda_preco := sr.Close, venda_fgi := sr.FGI,
                       retorno_pct := (sr.Close - b.Close) / b.Close * 100,
                       dias_trade := (sr.date : Int) - (b.date : Int),
                       posicao_aberta := false }] } l3 := by
    rw [List.foldl_cons, hstep2]
  have hloop : loopFGI bt st (l1 ++ b :: l2 ++ sr :: l3) =
      List.foldl (stepFGI (l1 ++ b :: l2 ++ sr :: l3) bt st)
        { position := none
          capital := 10000 * (1 + ((sr.Close - b.Close) / b.Close * 100) / 100)
          trades := [{ compra_data := b.date, compra_preco := b.Close,
                       compra_fgi := lookupFGI (l1 ++ b :: l2 ++ sr :: l3) b.date,
                       venda_data := sr.date, venda_preco := sr.Close, venda_fgi := sr.FGI,
                       retorno_pct := (sr.Close - b.Close) / b.Close * 100,
                       dias_trade := (sr.date : Int) - (b.date : Int),
                       posicao_aberta := false }] } l3 := by
    unfold loopFGI
    rw [List.foldl_append, List.foldl_append, hskip1, hA, hB]
  obtain ⟨ts2, hts⟩ := foldl_trades_prefix (l1 ++ b :: l2 ++ sr :: l3) bt st l3
    { position := none
      capital := 10000 * (1 + ((sr.Close - b.Close) / b.Close * 100) / 100)
      trades := [{ compra_data := b.date, compra_preco := b.Close,
                   compra_fgi := lookupFGI (l1 ++ b :: l2 ++ sr :: l3) b.date,
                   venda_data := sr.date, venda_preco := sr.Close, venda_fgi := sr.FGI,
                   retorno_pct := (sr.Close - b.Close) / b.Close * 100,
                   dias_trade := (sr.date : Int) - (b.date : Int),
                   posicao_aberta := false }] }
  obtain ⟨rest, hrest⟩ := finalState_trades_prefix bt st (l1 ++ b :: l2 ++ sr :: l3)
  refine ⟨{ compra_data := b.date, compra_preco := b.Close,
            compra_fgi := lookupFGI (l1 ++ b :: l2 ++ sr :: l3) b.date,
            venda_data := sr.date, venda_preco := sr.Close, venda_fgi := sr.FGI,
            retorno_pct := (sr.Close - b.Close) / b.Close * 100,
            dias_trade := (sr.date : Int) - (b.date : Int),
            posicao_aberta := false }, ts2 ++ rest, ?_, rfl, rfl, rfl, rfl, rfl⟩
  rw [run_trades_eq _ bt st hne, hsort, hrest, hloop, hts]
  simp

/-- C1 (amended, witness): the five-day scenario instantiates the amended
claim: the Buy fires on day 2 and the Sell on day 5. -/
theorem transitions_fire_on_inclusive_thresholds_witness :
    ∃ t ts2,
      (run_fgi_strategy
        ([{ date := 1, Open := 0, Close := 100, FGI := 50 }] ++
          { date := 2, Open := 0, Close := 90, FGI := 25 } ::
            [{ date := 3, Open := 0, Close := 80, FGI := 20 },
             { date := 4, Open := 0, Close := 70, FGI := 60 }] ++
              { date := 5, Open := 0, Close := 110, FGI := 75 } :: []) 30 70).trades_detalhados
        = t :: ts2 ∧
      t.compra_data = ({ date := 2, Open := 0, Close := 90, FGI := 25 } : Row).date ∧
      t.compra_preco = ({ date := 2, Open := 0, Close := 90, FGI := 25 } : Row).Close ∧
      t.venda_data = ({ date := 5, Open := 0, Close := 110, FGI := 75 } : Row).date ∧
      t.venda_preco = ({ date := 5, Open := 0, Close := 110, FGI := 75 } : Row).Close ∧
      t.posicao_aberta = false :=
  transitions_fire_on_inclusive_thresholds 30 70
    [{ date := 1, Open := 0, Close := 100, FGI := 50 }]
    { date := 2, Open := 0, Close := 90, FGI := 25 }
    [{ date := 3, Open := 0, Close := 80, FGI := 20 },
     { date := 4, Open := 0, Close := 70, FGI := 60 }]
    { date := 5, Open := 0, Close := 110, FGI := 75 }
    [] (by decide) (by decide) (by decide) (by decide) (by decide)

/-- C7 (amended): whenever `run_fgi_strategy` reports statistics (its `erro`
key is absent, modelled as `none`), the reported initial capital is the
hardcoded constant 10000, independently of every caller-supplied argument. -/
theorem capital_inicial_constant (df0 : List Row) (bt st : ℚ)
    (h : (run_fgi_strategy df0 bt st).erro = none) :
    (run_fgi_strategy df0 bt st).capital_inicial = 10000 := by
  by_cases h0 : df0 = []
  · rw [h0, run_eq_empty] at h
    simp at h
  · by_cases h1 : (finalState bt st (sortRows df0)).1 = []
    · rw [run_eq_nenhum df0 bt st h0 h1] at h
      simp at h
    · rw [run_eq_main df0 bt st h0 h1]

/-- C7 (amended, witness): a concrete run that reports statistics reports
initial capital 10000. -/
theorem capital_inicial_constant_witness :
    (run_fgi_strategy
      [{ date := 1, Open := 0, Close := 100, FGI := 20 },
       { date := 2, Open := 0, Close := 110, FGI := 80 }] 30 70).erro = none ∧
    (run_fgi_strategy
      [{ date := 1, Open := 0, Close := 100, FGI := 20 },
       { date := 2, Open := 0, Close := 110, FGI := 80 }] 30 70).capital_inicial = 10000 :=
  ⟨by decide,
   capital_inicial_constant
     [{ date := 1, Open := 0, Close := 100, FGI := 20 },
      { date := 2, Open := 0, Close := 110, FGI := 80 }] 30 70 (by decide)⟩

/-- C2 (counterexample): with sentiment known only for date 1 and prices for
dates 1 and 2, the requested window covering both, alignment returns only the
date-1 row: the date-2 price row, which has an earlier sentiment value
available, is dropped instead of being kept with a forward-filled sentiment. -/
theorem align_drops_unmatched_price_date :
    align_series [(1, 50)]
      [{ date := 1, Open := 1, Close := 100 }, { date := 2, Open := 1, Close := 110 }]
      1 2 = [{ date := 1, Open := 1, Close := 100, FGI := 50 }] ∧
    ∀ r ∈ align_series [(1, 50)]
      [{ date := 1, Open := 1, Close := 100 }, { date := 2, Open := 1, Close := 110 }]
      1 2, r.date ≠ 2 := by
  constructor
  · decide
  · decide

/-- C2 (amended): alignment is an inner join.  For every non-empty inputs,
(a) every output row's sentiment is an exact-date match taken from the raw
sentiment input and the row lies inside the requested window, (b) every
price row whose date lies inside the window and has an exact-date sentiment
match does produce an output row carrying that price row's prices and an
exact-date sentiment value, and (c) a price date with no exact-date
sentiment match contributes no output row at all — it is dropped, not
forward-filled. -/
theorem align_is_inner_join (fgi : List (Nat × ℚ)) (px : List PxRow) (ds de : Nat)
    (hf : fgi ≠ []) (hpx : px ≠ []) :
    (∀ r ∈ align_series fgi px ds de,
        (∃ q ∈ fgi, q.1 = r.date ∧ q.2 = r.FGI) ∧ ds ≤ r.date ∧ r.date ≤ de) ∧
    (∀ p ∈ px, ds ≤ p.date → p.date ≤ de → (∃ q ∈ fgi, q.1 = p.date) →
        ∃ r ∈ align_series fgi px ds de,
          r.date = p.date ∧ r.Open = p.Open ∧ r.Close = p.Close ∧
          ∃ q ∈ fgi, q.1 = p.date ∧ q.2 = r.FGI) ∧
    (∀ p ∈ px, (∀ q ∈ fgi, q.1 ≠ p.date) →
        ∀ r ∈ align_series fgi px ds de, r.date ≠ p.date) := by
  have key : ∀ r ∈ align_series fgi px ds de,
      (∃ q ∈ fgi, q.1 = r.date ∧ q.2 = r.FGI) ∧ ds ≤ r.date ∧ r.date ≤ de := by
    intro r hr
    unfold align_series at hr
    rw [if_neg hf, if_neg hpx] at hr
    rw [List.mem_filter] at hr
    obtain ⟨hr1, hr2⟩ := hr
    rw [List.mem_filterMap] at hr1
    obtain ⟨p, hpmem, hpeq⟩ := hr1
    rcases hq : fgi.find? (fun q => q.1 == p.date) with _ | q
    · rw [hq] at hpeq
      simp at hpeq
    · rw [hq] at hpeq
      simp only [Option.map_some', Option.some.injEq] at hpeq
      have hqmem := List.mem_of_find?_eq_some hq
      have hqd : q.1 = p.date := by simpa using List.find?_some hq
      subst hpeq
      simp only [Bool.and_eq_true, decide_eq_true_eq] at hr2
      exact ⟨⟨q, hqmem, by simpa using hqd, rfl⟩, hr2.1, hr2.2⟩
  refine ⟨key, ?_, ?_⟩
  · intro p hpmem hds hde hex
    obtain ⟨q1, hq1mem, hq1d⟩ := hex
    rcases hq : fgi.find? (fun x => x.1 == p.date) with _ | q0
    · exfalso
      rw [List.find?_eq_none] at hq
      exact hq q1 hq1mem (by simp [hq1d])
    · have hq0mem := List.mem_of_find?_eq_some hq
      have hq0d : q0.1 = p.date := by simpa using List.find?_some hq
      refine ⟨{ date := p.date, Open := p.Open, Close := p.Close, FGI := q0.2 }, ?_,
        rfl, rfl, rfl, q0, hq0mem, hq0d, rfl⟩
      unfold align_series
      rw [if_neg hf, if_neg hpx]
      rw [List.mem_filter]
      constructor
      · rw [List.mem_filterMap]
        exact ⟨p, hpmem, by rw [hq]; rfl⟩
      · simp [hds, hde]
  · intro p hpmem hnone r hr hdate
    obtain ⟨⟨q, hqmem, hq1, hq2⟩, _, _⟩ := key r hr
    exact hnone q hqmem (by rw [hq1, hdate])

/-- C2 (amended, witness): a concrete instance of the inner-join
characterization with both inputs non-empty: date 1 is matched and produced,
date 2 is unmatched and dropped. -/
theorem align_is_inner_join_witness :
    (∀ r ∈ align_series [(1, (50 : ℚ))]
        [{ date := 1, Open := 1, Close := 100 }, { date := 2, Open := 1, Close := 110 }] 1 2,
        (∃ q ∈ [(1, (50 : ℚ))], q.1 = r.date ∧ q.2 = r.FGI) ∧ 1 ≤ r.date ∧ r.date ≤ 2) ∧
    (∀ p ∈ [({ date := 1, Open := 1, Close := 100 } : PxRow),
            { date := 2, Open := 1, Close := 110 }],
        1 ≤ p.date → p.date ≤ 2 → (∃ q ∈ [(1, (50 : ℚ))], q.1 = p.date) →
        ∃ r ∈ align_series [(1, (50 : ℚ))]
          [{ date := 1, Open := 1, Close := 100 }, { date := 2, Open := 1, Close := 110 }] 1 2,
          r.date = p.date ∧ r.Open = p.Open ∧ r.Close = p.Close ∧
          ∃ q ∈ [(1, (50 : ℚ))], q.1 = p.date ∧ q.2 = r.FGI) ∧
    (∀ p ∈ [({ date := 1, Open := 1, Close := 100 } : PxRow),
            { date := 2, Open := 1, Close := 110 }],
        (∀ q ∈ [(1, (50 : ℚ))], q.1 ≠ p.date) →
        ∀ r ∈ align_series [(1, (50 : ℚ))]
          [{ date := 1, Open := 1, Close := 100 }, { date := 2, Open := 1, Close := 110 }] 1 2,
          r.date ≠ p.date) :=
  align_is_inner_join [(1, (50 : ℚ))]
    [{ date := 1, Open := 1, Close := 100 }, { date := 2, Open := 1, Close := 110 }] 1 2
    (by decide) (by decide)

/-- Deduplication keeps only rows of its input. -/
theorem dedupByDate_aux :
    ∀ (l acc : List (Nat × ℚ)) (p : Nat × ℚ),
      p ∈ l.foldl
        (fun acc r => if acc.any (fun q => q.1 == r.1) then acc else acc ++ [r]) acc →
      p ∈ acc ∨ p ∈ l
  | [], _, _, h => Or.inl h
  | r :: l, acc, p, h => by
    rw [List.foldl_cons] at h
    rcases dedupByDate_aux l _ p h with h2 | h2
    · by_cases hc : acc.any (fun q => q.1 == r.1) = true
      · rw [if_pos hc] at h2
        exact Or.inl h2
      · rw [if_neg hc] at h2
        rcases List.mem_append.mp h2 with h3 | h3
        · exact Or.inl h3
        · simp only [List.mem_singleton] at h3
          subst h3
          exact Or.inr (by simp)
    · exact Or.inr (by simp [h2])

/-- Deduplication output is a subset of its input. -/
theorem dedupByDate_subset (l : List (Nat × ℚ)) (p : Nat × ℚ)
    (h : p ∈ dedupByDate l) : p ∈ l := by
  rcases dedupByDate_aux l [] p h with h2 | h2
  · simp at h2
  · exact h2

/-- C4 (amended): fetch normalization never alters a sentiment value — every
row of the normalized series carries, unchanged (coerced, deduplicated,
sorted, but never clipped), the value of some input record; out-of-range
values therefore propagate to alignment and the engine. -/
theorem fetch_values_pass_through (data : List ApiRecord) (p : Nat × ℚ)
    (hp : p ∈ fetch_fgi_from_api data) :
    ∃ d ∈ data, d.timestamp = some p.1 ∧ d.value = some p.2 := by
  unfold fetch_fgi_from_api at hp
  by_cases h0 : apiRows data = []
  · rw [if_pos h0] at hp
    simp at hp
  · rw [if_neg h0] at hp
    rw [List.mem_insertionSort] at hp
    have hp2 : p ∈ apiRows data := dedupByDate_subset _ p hp
    unfold apiRows at hp2
    rw [List.mem_filterMap] at hp2
    obtain ⟨d, hd, hmatch⟩ := hp2
    refine ⟨d, hd, ?_⟩
    rcases hts : d.timestamp with _ | ts <;> rcases hv : d.value with _ | v <;>
      rw [hts, hv] at hmatch <;> simp only [] at hmatch
    · exact absurd hmatch (by simp)
    · exact absurd hmatch (by simp)
    · exact absurd hmatch (by simp)
    · have hpv : (ts, v) = p := by simpa using hmatch
      rw [← hpv]
      exact ⟨rfl, rfl⟩

/-- C4 (amended, witness): the value 42 of a concrete record reaches the
output unchanged. -/
theorem fetch_values_pass_through_witness :
    ∃ d ∈ [({ timestamp := some 3, value := some 42 } : ApiRecord)],
      d.timestamp = some (3, (42 : ℚ)).1 ∧ d.value = some (3, (42 : ℚ)).2 :=
  fetch_values_pass_through [{ timestamp := some 3, value := some 42 }] (3, 42) (by decide)

/-- C3: in the fee-aware engine (modelled from the spec, since `run_backtest`
is absent from `src/backtest.py`), a buy-sell round trip at equal entry and
exit price `p` with fee rate `f` loses exactly `1 − (1 − f)·(1 − f)` of the
traded capital: the fee is applied once per leg, symmetrically. -/
theorem fee_round_trip_loss (cash f p : ℚ) (hp : p ≠ 0) :
    cash - roundTrip cash f p p = cash * (1 - (1 - f) * (1 - f)) := by
  unfold roundTrip sellLeg buyLeg
  field_simp
  ring

/-- C3 (witness): with `feeRate = 0.01` and a round trip at price 100,
capital 10000 loses exactly `10000 × (1 − 0.99 × 0.99) = 199`. -/
theorem fee_round_trip_loss_witness :
    (100 : ℚ) ≠ 0 ∧
    (10000 : ℚ) - roundTrip 10000 (1 / 100) 100 100 =
      10000 * (1 - (1 - 1 / 100) * (1 - 1 / 100)) :=
  ⟨by norm_num, fee_round_trip_loss 10000 (1 / 100) 100 (by norm_num)⟩

/-- C4 (counterexample): an API record with value 150 passes normalization
unchanged (no clipping into `[0,100]`), and the out-of-range value 150 then
reaches the aligned series that feeds the engine. -/
theorem out_of_range_sentiment_not_clipped :
    fetch_fgi_from_api [{ timestamp := some 1, value := some 150 }] = [(1, 150)] ∧
    align_series (fetch_fgi_from_api [{ timestamp := some 1, value := some 150 }])
      [{ date := 1, Open := 1, Close := 100 }] 1 1 =
      [{ date := 1, Open := 1, Close := 100, FGI := 150 }] ∧
    ¬ ((150 : ℚ) ≤ 100) := by
  refine ⟨by decide, by decide, by norm_num⟩

/-- C5 (counterexample): on the empty aligned series the function returns a
dictionary whose `erro` key holds an error message — it substitutes an error
value, rather than returning an all-zero metrics result. -/
theorem empty_input_returns_error_value :
    (run_fgi_strategy [] 30 70).erro = some msgInsuficiente := by
  rfl

/-- C5 (amended): for every thresholds, the empty (or missing) aligned series
yields — without raising — a result carrying the error message
`msgInsuficiente` and `total_dias = 0`, with every metrics key absent
(modelled by the field defaults); it is not an all-zero metrics result. -/
theorem empty_input_error_dict (bt st : ℚ) :
    run_fgi_strategy [] bt st = { erro := some msgInsuficiente, total_dias := 0 } := by
  rfl

/-- C7 (counterexample): two invocations on entirely different inputs both
report `capital_inicial = 10000`: the initial capital is the hardcoded
function-local constant of `src/backtest.py` line 35, silently reused across
calls — the caller supplies no such parameter (the source signature is
`run_fgi_strategy(df, buy_threshold, sell_threshold)`). -/
theorem capital_hardcoded_across_calls :
    (run_fgi_strategy
      [{ date := 1, Open := 0, Close := 100, FGI := 20 },
       { date := 2, Open := 0, Close := 110, FGI := 80 }] 30 70).capital_inicial = 10000 ∧
    (run_fgi_strategy
      [{ date := 7, Open := 0, Close := 50, FGI := 10 },
       { date := 9, Open := 0, Close := 60, FGI := 90 }] 25 75).capital_inicial = 10000 := by
  constructor
  · decide
  · decide

/-- C9: on the five-day scenario (closes `[100,90,80,70,110]`, sentiment
`[50,25,20,60,75]`, `buyBelow = 30`, `sellAbove = 70`, the engine has no
fee), exactly one Buy executes on day 2 at price 90 and exactly one Sell on
day 5 at price 110, and the return on the traded capital is `110/90 − 1`. -/
theorem scenario_five_day_run :
    (run_fgi_strategy
      [{ date := 1, Open := 0, Close := 100, FGI := 50 },
       { date := 2, Open := 0, Close := 90, FGI := 25 },
       { date := 3, Open := 0, Close := 80, FGI := 20 },
       { date := 4, Open := 0, Close := 70, FGI := 60 },
       { date := 5, Open := 0, Close := 110, FGI := 75 }] 30 70).trades_detalhados =
      [{ compra_data := 2, compra_preco := 90, compra_fgi := 25,
         venda_data := 5, venda_preco := 110, venda_fgi := 75,
         retorno_pct := (110 - 90) / 90 * 100, dias_trade := 3,
         posicao_aberta := false }] ∧
    (run_fgi_strategy
      [{ date := 1, Open := 0, Close := 100, FGI := 50 },
       { date := 2, Open := 0, Close := 90, FGI := 25 },
       { date := 3, Open := 0, Close := 80, FGI := 20 },
       { date := 4, Open := 0, Close := 70, FGI := 60 },
       { date := 5, Open := 0, Close := 110, FGI := 75 }] 30 70).capital_final_estrategia
      / 10000 - 1 = 110 / 90 - 1 := by
  constructor
  · norm_num [run_fgi_strategy, sortRows, List.insertionSort, List.orderedInsert,
      finalState, loopFGI, initState, stepFGI, lookupFGI, List.find?,
      Trade.mk.injEq, List.cons_ne_nil]
    try decide
  · norm_num [run_fgi_strategy, sortRows, List.insertionSort, List.orderedInsert,
      finalState, loopFGI, initState, stepFGI, lookupFGI, List.find?,
      List.cons_ne_nil]
    try decide

end Backtest
